import Mathlib

/-!
Shallow embedding of the rofi-rwifi sources (src/types.rs, src/nmcli.rs,
src/cache.rs, src/main.rs, src/daemon.rs) and proofs about the claims of
the specification.  Machine integers are modelled as `Nat` (the values in
play — signal 0–100, timestamps, TTLs — never overflow their Rust types,
and parsing enforces the `u8` bound explicitly).
-/

namespace RofiWifi

/- ───────────────────────── String helpers ─────────────────────────
Embeddings of the Rust `str` operations the sources use:
`str::contains` (substring search), `str::lines`, `u8::from_str`,
and `splitn(5, ':')`. -/

/-- `pat` occurs as a contiguous sublist of the second argument
(Rust `str::contains` on the character level). -/
def subList (pat : List Char) : List Char → Bool
  | [] => pat.isEmpty
  | c :: cs => pat.isPrefixOf (c :: cs) || subList pat cs

/-- Rust `s.contains(pat)`. -/
def containsSub (s pat : String) : Bool :=
  subList pat.toList s.toList

/-- Split a character list on newline characters. -/
def splitNl : List Char → List (List Char)
  | [] => [[]]
  | c :: cs =>
    if c = '\n' then [] :: splitNl cs
    else
      match splitNl cs with
      | [] => [[c]]
      | l :: ls => (c :: l) :: ls

/-- Strip one trailing carriage return, as Rust `str::lines` does. -/
def stripCr (l : List Char) : List Char :=
  if l.getLast? = some '\r' then l.dropLast else l

/-- Rust `str::lines`: split on `\n`, drop the final empty segment (so a
trailing newline adds no line and the empty string has no lines), strip a
trailing `\r` from each line. -/
def linesOf (s : String) : List (List Char) :=
  let parts := splitNl s.toList
  let parts := if parts.getLast? = some [] then parts.dropLast else parts
  parts.map stripCr

/-- Rust whitespace test used by `str::trim` (ASCII fragment). -/
def isWs (c : Char) : Bool :=
  c = ' ' || c = '\t' || c = '\n' || c = '\r'

/-- Rust `str::trim` on the character level. -/
def trimChars (cs : List Char) : List Char :=
  ((cs.dropWhile isWs).reverse.dropWhile isWs).reverse

/-- Rust `s.parse::<u8>()` on the character level: optional leading `+`,
at least one digit, value at most 255. -/
def parseU8 (cs : List Char) : Option Nat :=
  let ds := match cs with
    | '+' :: rest => rest
    | _ => cs
  if ds.isEmpty then none
  else if ds.any (fun c => !c.isDigit) then none
  else
    let v := ds.foldl (fun acc c => acc * 10 + (c.toNat - 48)) 0
    if v ≤ 255 then some v else none

/-- Split a character list at the first `':'`: the segment before it and,
when a `':'` was found, the remainder after it. -/
def breakColon : List Char → List Char × Option (List Char)
  | [] => ([], none)
  | c :: cs =>
    if c = ':' then ([], some cs)
    else
      let r := breakColon cs
      (c :: r.1, r.2)

/-- Rust `s.splitn(n, ':')`: at most `n` pieces, the last piece keeps the
remaining separators. -/
def splitnColon : Nat → List Char → List (List Char)
  | 0, _ => []
  | 1, cs => [cs]
  | Nat.succ (Nat.succ m), cs =>
    match breakColon cs with
    | (seg, none) => [seg]
    | (seg, some rest) => seg :: splitnColon (Nat.succ m) rest

/- ───────────────────────── src/types.rs ───────────────────────── -/

/-- `Security` from src/types.rs. -/
inductive Security where
  | open_ : Security
  | wep : Security
  | wpa : Security
  | wpa2 : Security
  | wpa3 : Security
  | unknown : String → Security
  deriving DecidableEq, Repr

/-- `Security::needs_password` from src/types.rs. -/
def Security.needs_password : Security → Bool
  | .open_ => false
  | _ => true

/-- `impl From<&str> for Security` from src/types.rs (character level;
`to_uppercase` modelled by `Char.toUpper`). -/
def Security.fromChars (cs : List Char) : Security :=
  let up := cs.map Char.toUpper
  if subList "WPA3".toList up then .wpa3
  else if subList "WPA2".toList up then .wpa2
  else if subList "WPA".toList up then .wpa
  else if subList "WEP".toList up then .wep
  else if up = [] || up = ['-', '-'] then .open_
  else .unknown (String.mk cs)

/-- `AccessPoint` from src/types.rs (`signal : u8` modelled as `Nat`,
kept ≤ 255 by the parser). -/
structure AccessPoint where
  ssid : String
  security : Security
  signal : Nat
  bars : String
  in_use : Bool
  deriving DecidableEq, Repr

/- ───────────────────────── src/nmcli.rs : listing ───────────────────── -/

/-- `parse_ap_line` from src/nmcli.rs. -/
def parse_ap_line (line : List Char) : Option AccessPoint :=
  let parts := splitnColon 5 line
  if parts.length < 5 then none
  else
    let in_use := trimChars (parts.getD 0 []) = ['*']
    let ssid := trimChars (parts.getD 1 [])
    let security := Security.fromChars (trimChars (parts.getD 2 []))
    let signal := (parseU8 (trimChars (parts.getD 3 []))).getD 0
    let bars := trimChars (parts.getD 4 [])
    if ssid = [] || ssid = ['-', '-'] then none
    else some { ssid := String.mk ssid, security := security, signal := signal,
                bars := String.mk bars, in_use := in_use }

/-- The comparator of `aps.sort_by` in `list_access_points`
(src/nmcli.rs line 41): `b.in_use.cmp(&a.in_use).then(b.signal.cmp(&a.signal))`.
`sort_by` keeps `a` before `b` when the comparator is not `Greater`. -/
def apLe (a b : AccessPoint) : Bool :=
  ((compare b.in_use a.in_use).then (compare b.signal a.signal)) ≠ .gt

/-- Rust `Vec::dedup_by(same_bucket)`: walk the vector keeping the first
element of each run; a later element `y` is dropped when
`same_bucket y kept` holds against the last kept element. -/
def dedupByKeep (f : AccessPoint → AccessPoint → Bool) :
    AccessPoint → List AccessPoint → List AccessPoint
  | _, [] => []
  | kept, y :: ys =>
    if f y kept then dedupByKeep f kept ys
    else y :: dedupByKeep f y ys

/-- Rust `Vec::dedup_by` on the whole vector. -/
def dedupBy (f : AccessPoint → AccessPoint → Bool) :
    List AccessPoint → List AccessPoint
  | [] => []
  | x :: xs => x :: dedupByKeep f x xs

/-- The `same_bucket` closure of `list_access_points`
(src/nmcli.rs line 44): `a.ssid == b.ssid && !a.in_use` where `a` is the
later element (the removal candidate). -/
def dedupPred (a b : AccessPoint) : Bool :=
  a.ssid = b.ssid && !a.in_use

/-- The parsing stage of `list_access_points` (src/nmcli.rs lines 33–38):
lines of stdout, drop lines starting with `--`, parse each. -/
def parsedAps (stdout : String) : List AccessPoint :=
  ((linesOf stdout).filter
    (fun l => !("--".toList.isPrefixOf l))).filterMap parse_ap_line

/-- `list_access_points` (src/nmcli.rs lines 20–47), as a function of the
stdout text of `nmcli device wifi list`: parse, stable-sort by
(in-use first, then signal descending), dedup consecutive same-SSID
non-associated entries. -/
def list_access_points (stdout : String) : List AccessPoint :=
  dedupBy dedupPred ((parsedAps stdout).mergeSort apLe)

/- ───────────────────────── src/cache.rs ─────────────────────────
The cache file is serialized with serde_json (external); its on-disk
content is modelled as a document that is either well-formed (a
`CacheFile` that deserializes back) or malformed (truncated or otherwise
undeserializable text).  Times are seconds since the epoch as `Nat`;
`saturating_sub` on `u64` is `Nat` subtraction. -/

/-- `CacheFile` from src/cache.rs. -/
structure CacheFile where
  timestamp : Nat
  aps : List AccessPoint
  deriving DecidableEq, Repr

/-- Content of a file on disk: either a well-formed serialized `CacheFile`
or malformed text (e.g. truncated mid-write) on which deserialization
fails. -/
inductive Doc where
  | malformed : Doc
  | full : CacheFile → Doc
  deriving DecidableEq, Repr

/-- `cache::read` (src/cache.rs lines 33–48) as a function of the file
content at the cache path (`none` = file missing / unreadable), the
current time and the TTL.  `age = now.saturating_sub(timestamp)`;
hit iff `age < ttl_secs`. -/
def cacheRead (file : Option Doc) (now ttl_secs : Nat) :
    Option (List AccessPoint) :=
  match file with
  | none => none
  | some .malformed => none
  | some (.full data) =>
    let age := now - data.timestamp
    if age < ttl_secs then some data.aps else none

/-- `cache::remaining_ttl` (src/cache.rs lines 56–71):
`ttl_secs.saturating_sub(age)` with the same `age`, and zero when the
file is missing or deserialization fails. -/
def remaining_ttl (file : Option Doc) (now ttl_secs : Nat) : Nat :=
  match file with
  | none => 0
  | some .malformed => 0
  | some (.full data) => ttl_secs - (now - data.timestamp)

/-- The filesystem state `cache::write` touches: the cache path and the
sibling `.tmp` path. -/
structure FS where
  cacheDoc : Option Doc
  tmpDoc : Option Doc
  deriving DecidableEq, Repr

/-- Outcome of the `std::fs::write(&tmp, json)` call: success, failure
leaving a truncated temporary file, or failure leaving nothing. -/
inductive TmpWrite where
  | ok : TmpWrite
  | failTruncated : TmpWrite
  | failNone : TmpWrite
  deriving DecidableEq, Repr

/-- `cache::write` (src/cache.rs lines 15–30) as a state transformer with
failure injection: `serOk` is whether `serde_json::to_string` succeeds,
`tw` the outcome of writing the temporary file.  Returns the final
filesystem state and whether the function returned `Ok`.  The serialized
snapshot is `data`; the rename replaces the cache path with the temporary
file's content atomically. -/
def cacheWrite (fs : FS) (serOk : Bool) (tw : TmpWrite) (data : CacheFile) :
    FS × Bool :=
  if !serOk then (fs, false)
  else
    match tw with
    | .failTruncated => ({ fs with tmpDoc := some .malformed }, false)
    | .failNone => (fs, false)
    | .ok =>
      let fs1 : FS := { fs with tmpDoc := some (.full data) }
      ({ cacheDoc := fs1.tmpDoc, tmpDoc := none }, true)

/-- The successive filesystem states `cache::write` passes through, in
order: the entry state, the state after the temporary-file write, and
(on success) the state after the rename.  A concurrent reader of the
cache path observes exactly these states. -/
def cacheWriteTrace (fs : FS) (serOk : Bool) (tw : TmpWrite)
    (data : CacheFile) : List FS :=
  if !serOk then [fs]
  else
    match tw with
    | .failTruncated => [fs, { fs with tmpDoc := some .malformed }]
    | .failNone => [fs, fs]
    | .ok =>
      let fs1 : FS := { fs with tmpDoc := some (.full data) }
      [fs, fs1, { cacheDoc := fs1.tmpDoc, tmpDoc := none }]

/- ───────────────────── src/nmcli.rs : connect_new ───────────────────── -/

/-- `ConnectResult` from src/types.rs. -/
inductive ConnectResult where
  | success : String → ConnectResult
  | wrongPassword : ConnectResult
  | timeout : ConnectResult
  | failed : String → ConnectResult
  deriving DecidableEq, Repr

/-- Rust `str::to_lowercase` (ASCII fragment, via `Char.toLower`). -/
def lowerChars (cs : List Char) : List Char :=
  cs.map Char.toLower

/-- `stderr.lines().last()` of src/nmcli.rs line 201–204, with the
`unwrap_or("未知错误")` default. -/
def lastLineOr (s : String) : String :=
  match (linesOf s).getLast? with
  | none => "未知错误"
  | some l => String.mk l

/-- The `format!("{stderr}{stdout}")` of src/nmcli.rs line 186: the
lowercased stderr followed by the lowercased stdout. -/
def combinedOut (stderr stdout : String) : List Char :=
  lowerChars stderr.toList ++ lowerChars stdout.toList

/-- The credential-keyword test of src/nmcli.rs lines 192–196. -/
def credKeyword (combined : List Char) : Bool :=
  subList "secrets".toList combined
    || subList "password".toList combined
    || subList "authentication".toList combined
    || subList "802-11-wireless-security".toList combined

/-- The failure classifier inside `connect_new` (src/nmcli.rs lines
184–207): lowercase stderr and stdout, concatenate, match credential
keywords first, then the timeout keyword, else a `Failed` carrying the
last line of the raw stderr. -/
def classifyFailure (stderr stdout : String) : ConnectResult :=
  let combined := combinedOut stderr stdout
  if credKeyword combined then .wrongPassword
  else if subList "timeout".toList combined then .timeout
  else .failed (lastLineOr stderr)

/-- External commands issued by `connect_new`, in issue order. -/
inductive ExtCmd where
  | nmcliConnect : String → Option String → ExtCmd
  | nmcliDelete : String → ExtCmd
  | queryIp : ExtCmd
  deriving DecidableEq, Repr

/-- Outcome of spawning the `nmcli dev wifi con` command. -/
inductive SpawnResult where
  | err : String → SpawnResult
  | exited : Bool → String → String → SpawnResult
  deriving DecidableEq, Repr

/-- `connect_new` (src/nmcli.rs lines 163–211) as a function of the
spawn outcome (`SpawnResult.exited success stdout stderr`) and the result
of the `get_ip` lookup on success.  Returns the `ConnectResult` and the
ordered list of external commands issued. -/
def connect_new (ssid : String) (password : Option String)
    (res : SpawnResult) (ip : Option String) : ConnectResult × List ExtCmd :=
  match res with
  | .err e => (.failed e, [.nmcliConnect ssid password])
  | .exited true _ _ =>
    (.success (ip.getD "未知"), [.nmcliConnect ssid password, .queryIp])
  | .exited false stdout stderr =>
    (classifyFailure stderr stdout,
     [.nmcliConnect ssid password, .nmcliDelete ssid])

/- ───────────────── src/main.rs : do_connect_new ─────────────────
The retry loop `for attempt in 1..=cfg.max_retry` of src/main.rs lines
440–489, as an event trace.  The external collaborators (the connect
operation per attempt, the password re-prompt per attempt) are supplied
as oracles. -/

/-- Observable events of `do_connect_new`, one per notify / prompt /
external-command call site, in program order. -/
inductive Ev where
  | notifyWrongRetry : Nat → Nat → Ev
  | promptPw : Nat → Ev
  | notifyCancelled : Ev
  | notifyConnecting : Nat → Nat → Ev
  | connectCall : Nat → Ev
  | postConnect : String → Ev
  | notifyFinalFail : Nat → Ev
  | notifyTimeout : Ev
  | notifyOtherFail : String → Ev
  deriving DecidableEq, Repr

/-- Oracles for the external collaborators of `do_connect_new`:
the classified result of the attempt numbered `k`, and the password
prompt's result at attempt `k` (`none` = user pressed Esc). -/
structure ConnEnv where
  connect : Nat → ConnectResult
  promptResult : Nat → Option String

/-- The connect-and-dispatch tail of one iteration of the retry loop
(src/main.rs lines 464–487): notify progress, invoke the connect
operation, then dispatch on its class — success returns after the
post-connect handling, a wrong credential at the ceiling notifies the
final failure, a wrong credential below it continues with `next`
(the remaining iterations), a timeout or other failure notifies and
returns. -/
def connRest (env : ConnEnv) (max_retry attempt : Nat) (next : List Ev) :
    List Ev :=
  .notifyConnecting attempt max_retry :: .connectCall attempt ::
    match env.connect attempt with
    | .success ip => [.postConnect ip]
    | .wrongPassword =>
      if attempt = max_retry then [.notifyFinalFail max_retry] else next
    | .timeout => [.notifyTimeout]
    | .failed msg => [.notifyOtherFail msg]

/-- One pass of the retry loop of `do_connect_new`, at attempt number
`attempt`, with `fuel` iterations remaining (`fuel = max_retry - attempt
+ 1` at every call).  Mirrors src/main.rs lines 443–488: on attempts
after the first, notify the wrong-password message and re-prompt
(cancel / empty input aborts with a cancelled notice); then run the
connect-and-dispatch tail. -/
def connLoop (env : ConnEnv) (max_retry : Nat) : Nat → Nat → List Ev
  | _, 0 => []
  | attempt, Nat.succ fuel =>
    let rest : List Ev :=
      connRest env max_retry attempt (connLoop env max_retry (attempt + 1) fuel)
    if 1 < attempt then
      .notifyWrongRetry attempt max_retry :: .promptPw attempt ::
        match env.promptResult attempt with
        | some p => if p = "" then [.notifyCancelled] else rest
        | none => [.notifyCancelled]
    else rest

/-- `do_connect_new` (src/main.rs lines 440–489): run the retry loop from
attempt 1 with `max_retry` iterations available. -/
def do_connect_new (env : ConnEnv) (max_retry : Nat) : List Ev :=
  connLoop env max_retry 1 max_retry

/-- Number of invocations of the external connect operation in a trace. -/
def countConnect : List Ev → Nat
  | [] => 0
  | .connectCall _ :: es => countConnect es + 1
  | _ :: es => countConnect es

/- ───────────────── src/main.rs : menu loop navigation ─────────────────
`Nav`, `MenuAction`, `parse_action`, and the navigation result of
`handle_action` / `run_menu`.  All collaborator answers (rofi prompts,
confirmations, nmcli queries) are supplied as oracles; only the
control flow deciding the returned `Nav` is retained. -/

/-- `Nav` from src/main.rs lines 43–51. -/
inductive Nav where
  | back : Nav
  | refresh : Nav
  | quit : Nav
  deriving DecidableEq, Repr

/-- `MenuAction` from src/types.rs lines 97–108. -/
inductive MenuAction where
  | connect : AccessPoint → MenuAction
  | toggleRadio : MenuAction
  | refresh : MenuAction
  | manual : MenuAction
  | disconnect : MenuAction
  | forget : MenuAction
  | hotspot : MenuAction
  | details : MenuAction
  | qrCode : MenuAction
  deriving DecidableEq, Repr

/-- Collaborator answers consumed by `handle_action` (src/main.rs lines
261–434) and the nested flows it calls.  `none` from a rofi prompt means
the user pressed Esc. -/
structure UiEnv where
  mainMenuChoice : Option String
  manualInput : Option String
  confirmDisconnect : Bool
  savedConnections : List String
  forgetChoice : Option String
  confirmForget : Bool
  confirmOpenNetwork : Bool
  passwordFirst : Option String
  connectSavedOk : Bool
  detailsOk : Bool
  qrOk : Bool
  hotspotActive : Option String
  confirmHotspotOff : Bool
  hotspotProfile : Option String
  hotspotSsidInput : Option String
  hotspotPassInput : Option String

/-- `parse_action` (src/main.rs lines 231–255). -/
def parse_action (choice : String) (aps : List AccessPoint)
    (curr_ssid : Option String) : MenuAction :=
  let s := choice.trim
  if s.startsWith "⚡" then .toggleRadio
  else if s.startsWith "🔄" then .refresh
  else if s.startsWith "✏️" then .manual
  else if s = "❌ disconnect" then .disconnect
  else if s.startsWith "🗑️" then .forget
  else if s = "📡 hotspot" then .hotspot
  else if s = "📊 details" then .details
  else if s = "📷 qrcode" then .qrCode
  else
    match aps.find? (fun ap => containsSub choice ap.ssid) with
    | some ap => .connect ap
    | none =>
      match curr_ssid with
      | some ssid =>
        match aps.find? (fun ap => ap.ssid = ssid) with
        | some ap => .connect ap
        | none => .refresh
      | none => .refresh

/-- Split a character list at the first occurrence of `sep`
(Rust `input.find(sep)` plus the two index slices). -/
def breakAt (sep : Char) : List Char → List Char × Option (List Char)
  | [] => ([], none)
  | c :: cs =>
    if c = sep then ([], some cs)
    else
      let r := breakAt sep cs
      (c :: r.1, r.2)

/-- The `(ssid, pass)` split of the manual-connect input
(src/main.rs lines 292–298): split at the first `,`, trim both halves,
an empty password half becomes `none`. -/
def splitManualInput (input : String) : String × Option String :=
  match breakAt ',' input.toList with
  | (_, none) => (String.mk (trimChars input.toList), none)
  | (s, some p) =>
    let ps := trimChars p
    (String.mk (trimChars s), if ps = [] then none else some (String.mk ps))

/-- The navigation result of `handle_action` (src/main.rs lines 261–434).
Every early `return` of the source is an explicit branch here; the shared
fall-through `Ok(Nav::Back)` at line 433 ends every remaining path.
Notifications and other side effects carry no navigation information and
are dropped. -/
def handle_action (action : MenuAction) (env : UiEnv)
    (curr_ssid : Option String) : Nav :=
  match action with
  | .toggleRadio => .refresh
  | .refresh => .refresh
  | .manual =>
    match env.manualInput with
    | some s =>
      if s = "" then .back
      else
        let sp := splitManualInput s
        if sp.1 = "" then .back
        else .back
    | none => .back
  | .disconnect =>
    match curr_ssid with
    | some _ => .back
    | none => .back
  | .forget =>
    if env.savedConnections.isEmpty then .back
    else
      match env.forgetChoice with
      | some _ => .back
      | none => .back
  | .hotspot => .back
  | .details => .back
  | .qrCode => .back
  | .connect ap =>
    if ap.security = .open_ && !env.confirmOpenNetwork then .back
    else if env.savedConnections.any (fun n => n = ap.ssid) then .back
    else if ap.security.needs_password then
      match env.passwordFirst with
      | some p => if p = "" then .back else .back
      | none => .back
    else .back

/-- The navigation result of `run_menu` (src/main.rs lines 149–229):
Esc on the top-level list (`main_menu` returning `None`) yields
`Nav::Quit`; any selection is parsed and dispatched to `handle_action`. -/
def run_menu (env : UiEnv) (aps : List AccessPoint)
    (curr_ssid : Option String) : Nav :=
  match env.mainMenuChoice with
  | none => .quit
  | some choice => handle_action (parse_action choice aps curr_ssid) env curr_ssid

/- ──────────── src/main.rs do_scan / src/daemon.rs : scan lock ────────────
The advisory `flock` on the scan-lock file, and the two routines that
scan and write the cache, as a two-process interleaving semantics.
Each process runs a straight-line program of abstract instructions;
`do_scan` (src/main.rs lines 93–125) takes the exclusive non-blocking
lock and returns at once when it is busy, while the daemon loop body
(src/daemon.rs lines 34–42) rescans, lists and writes with no locking.
The program counter `pc` indexes the next instruction; a `pc` past the
program's end means the routine has returned. -/

/-- Abstract instructions of the scan-and-write routines. -/
inductive Instr where
  | tryLock : Instr
  | rescan : Instr
  | listAps : Instr
  | writeCache : Instr
  | unlock : Instr
  deriving DecidableEq, Repr

/-- `do_scan` (src/main.rs lines 93–125): acquire `LOCK_EX | LOCK_NB`
(returning immediately when busy), rescan, list the access points, write
the cache, release the lock. -/
def doScanProg : List Instr :=
  [.tryLock, .rescan, .listAps, .writeCache, .unlock]

/-- One iteration of the daemon loop (src/daemon.rs lines 34–42):
rescan, list the access points, write the cache — no lock is taken. -/
def daemonIterProg : List Instr :=
  [.rescan, .listAps, .writeCache]

/-- Instructions belonging to the scan-and-write sequence proper. -/
def scanInstr : Instr → Bool
  | .rescan => true
  | .listAps => true
  | .writeCache => true
  | _ => false

/-- Joint state of two processes sharing the advisory scan lock. -/
structure LockSt where
  lockHolder : Option (Fin 2)
  pc : Fin 2 → Nat

/-- Both program counters at zero, lock free. -/
def lockInit : LockSt :=
  { lockHolder := none, pc := fun _ => 0 }

/-- Labelled small-step semantics: process `i` executes the next
instruction of its program.  `flock(LOCK_EX | LOCK_NB)` succeeds only
when no process holds the lock, and on failure `do_scan` returns
immediately (the pc jumps past the end).  `flock(LOCK_UN)` releases the
caller's own lock. -/
inductive LockStep (prog : Fin 2 → List Instr) :
    LockSt → Fin 2 × Instr → LockSt → Prop where
  | tryLockFree (i : Fin 2) (s : LockSt) :
      (prog i).get? (s.pc i) = some .tryLock →
      s.lockHolder = none →
      LockStep prog s (i, .tryLock)
        { lockHolder := some i,
          pc := fun j => if j = i then s.pc i + 1 else s.pc j }
  | tryLockBusy (i : Fin 2) (s : LockSt) (k : Fin 2) :
      (prog i).get? (s.pc i) = some .tryLock →
      s.lockHolder = some k →
      LockStep prog s (i, .tryLock)
        { lockHolder := s.lockHolder,
          pc := fun j => if j = i then (prog i).length else s.pc j }
  | execScan (i : Fin 2) (s : LockSt) (ins : Instr) :
      (prog i).get? (s.pc i) = some ins →
      scanInstr ins = true →
      LockStep prog s (i, ins)
        { lockHolder := s.lockHolder,
          pc := fun j => if j = i then s.pc i + 1 else s.pc j }
  | unlock (i : Fin 2) (s : LockSt) :
      (prog i).get? (s.pc i) = some .unlock →
      LockStep prog s (i, .unlock)
        { lockHolder := if s.lockHolder = some i then none else s.lockHolder,
          pc := fun j => if j = i then s.pc i + 1 else s.pc j }

/-- Reachability from the initial state by any interleaving. -/
def LockReach (prog : Fin 2 → List Instr) (s : LockSt) : Prop :=
  Relation.ReflTransGen (fun a b => ∃ l, LockStep prog a l b) lockInit s

/-- The system the repository actually runs: the foreground `do_scan`
beside the daemon loop body. -/
def mixedProg : Fin 2 → List Instr :=
  fun i => if i = 0 then doScanProg else daemonIterProg

/-- Two concurrent `do_scan` invocations (foreground and the
fire-and-forget spawn of `get_aps`, or two foreground processes). -/
def ddProg : Fin 2 → List Instr :=
  fun _ => doScanProg

/-- The claim's property for a program pair: every step that executes a
scan-and-write instruction is taken by the current lock holder. -/
def scanNeedsLock (prog : Fin 2 → List Instr) : Prop :=
  ∀ s l s', LockReach prog s → LockStep prog s l s' →
    scanInstr l.2 = true → s.lockHolder = some l.1

/-- Process `i` is inside `do_scan`'s critical section: it has passed the
successful `tryLock` and not yet executed `unlock`. -/
def inCrit (s : LockSt) (i : Fin 2) : Prop :=
  1 ≤ s.pc i ∧ s.pc i ≤ 4

/-- The lock invariant of the two-`do_scan` system: a process's program
counter is strictly between its `tryLock` and past its `unlock` exactly
when it holds the lock. -/
def lockInv (s : LockSt) : Prop :=
  ∀ i, (1 ≤ s.pc i ∧ s.pc i ≤ 4) ↔ s.lockHolder = some i

/-- The state after the foreground `do_scan` (process 0) has acquired
the lock. -/
def lockS1 : LockSt :=
  { lockHolder := some 0, pc := fun j => if j = 0 then 1 else 0 }

/-- The state after a second `do_scan` (process 1) has observed the lock
busy and returned. -/
def lockS2 : LockSt :=
  { lockHolder := some 0, pc := fun j => if j = 1 then 5 else lockS1.pc j }

/-- The oracle in which every attempt reports a wrong credential and
every re-prompt is answered with the non-empty password `p`. -/
def envAllWrong : ConnEnv :=
  ⟨fun _ => .wrongPassword, fun _ => some "p"⟩

/-- The oracle in which every attempt times out. -/
def envTimeout : ConnEnv :=
  ⟨fun _ => .timeout, fun _ => some "p"⟩

/- ═══════════════════════════ Theorems ═══════════════════════════ -/

/-- Claim C3: for a snapshot stored with timestamp `T`, `read(ttl)`
returns the stored access-point sequence exactly when `now - T < ttl`
(hits on `[T, T + ttl)`), misses for all `now ≥ T + ttl`, and a missing
file or a deserialization failure is likewise a miss (`none`), never an
error. -/
theorem read_ttl_correct (T : Nat) (aps : List AccessPoint) (ttl now : Nat)
    (h : T ≤ now) :
    (cacheRead (some (.full ⟨T, aps⟩)) now ttl = some aps ↔ now < T + ttl) ∧
    (T + ttl ≤ now → cacheRead (some (.full ⟨T, aps⟩)) now ttl = none) ∧
    cacheRead none now ttl = none ∧
    cacheRead (some .malformed) now ttl = none := by
  refine ⟨?_, ?_, rfl, rfl⟩ <;> simp only [cacheRead] <;> split <;>
    simp <;> omega

/-- Witness for claim C3, at the spec's scenario: snapshot written at
T = 1000, ttl = 30, read at 1020 hits, at 1031 misses. -/
theorem read_ttl_correct_witness :
    ((1000 : Nat) ≤ 1020 ∧
      ((cacheRead (some (.full ⟨1000, []⟩)) 1020 30 = some [] ↔
          (1020 : Nat) < 1000 + 30) ∧
        ((1000 : Nat) + 30 ≤ 1020 → cacheRead (some (.full ⟨1000, []⟩)) 1020 30 = none) ∧
        cacheRead none 1020 30 = none ∧
        cacheRead (some .malformed) 1020 30 = none)) ∧
      ((1000 : Nat) ≤ 1031 ∧
        ((cacheRead (some (.full ⟨1000, []⟩)) 1031 30 = some [] ↔
            (1031 : Nat) < 1000 + 30) ∧
          ((1000 : Nat) + 30 ≤ 1031 → cacheRead (some (.full ⟨1000, []⟩)) 1031 30 = none) ∧
          cacheRead none 1031 30 = none ∧
          cacheRead (some .malformed) 1031 30 = none)) :=
  ⟨⟨by decide, read_ttl_correct 1000 [] 30 1020 (by decide)⟩,
   ⟨by decide, read_ttl_correct 1000 [] 30 1031 (by decide)⟩⟩

/-- Claim C7: `remaining(ttl)` equals `max(0, ttl - (now - timestamp))`,
is zero when the cache file is missing, undeserializable, or expired,
and is total (it returns on every input instead of panicking). -/
theorem remaining_ttl_correct (T now ttl : Nat) (aps : List AccessPoint)
    (h : T ≤ now) :
    ((remaining_ttl (some (.full ⟨T, aps⟩)) now ttl : Int) =
      max 0 ((ttl : Int) - ((now : Int) - (T : Int)))) ∧
    remaining_ttl none now ttl = 0 ∧
    remaining_ttl (some .malformed) now ttl = 0 ∧
    (T + ttl ≤ now → remaining_ttl (some (.full ⟨T, aps⟩)) now ttl = 0) := by
  refine ⟨?_, rfl, rfl, ?_⟩ <;> simp only [remaining_ttl] <;> omega

/-- Witness for claim C7, at the spec's scenario: snapshot at T = 1000,
`remaining(30)` at 1020 is 10. -/
theorem remaining_ttl_correct_witness :
    (1000 : Nat) ≤ 1020 ∧
      (((remaining_ttl (some (.full ⟨1000, []⟩)) 1020 30 : Int) =
          max 0 ((30 : Int) - ((1020 : Int) - (1000 : Int)))) ∧
        remaining_ttl none 1020 30 = 0 ∧
        remaining_ttl (some .malformed) 1020 30 = 0 ∧
        ((1000 : Nat) + 30 ≤ 1020 → remaining_ttl (some (.full ⟨1000, []⟩)) 1020 30 = 0)) ∧
      remaining_ttl (some (.full ⟨1000, []⟩)) 1020 30 = 10 :=
  ⟨by decide, remaining_ttl_correct 1000 1020 30 [] (by decide), by decide⟩

/-- Claim C4: `write(snapshot)` serializes to a temporary path and then
renames onto the cache path.  Along every state the write passes
through, the cache path holds either the prior content or the complete
new snapshot — never a truncated document it did not already hold; if
serialization or the temporary-file write fails, the function reports
failure and the cache path is unchanged; on success the cache path holds
the new snapshot. -/
theorem write_atomic (fs : FS) (serOk : Bool) (tw : TmpWrite)
    (data : CacheFile) :
    (∀ s ∈ cacheWriteTrace fs serOk tw data,
      s.cacheDoc = fs.cacheDoc ∨ s.cacheDoc = some (.full data)) ∧
    (¬(serOk = true ∧ tw = .ok) →
      (cacheWrite fs serOk tw data).1.cacheDoc = fs.cacheDoc ∧
        (cacheWrite fs serOk tw data).2 = false) ∧
    (serOk = true → tw = .ok →
      (cacheWrite fs serOk tw data).1.cacheDoc = some (.full data) ∧
        (cacheWrite fs serOk tw data).2 = true) ∧
    (fs.cacheDoc ≠ some .malformed →
      ∀ s ∈ cacheWriteTrace fs serOk tw data, s.cacheDoc ≠ some .malformed) := by
  cases serOk <;> cases tw <;>
    simp [cacheWrite, cacheWriteTrace]

/-- Witness for claim C4: a failed temporary-file write leaves the
previously stored snapshot visible and reports failure. -/
theorem write_atomic_witness :
    (∀ s ∈ cacheWriteTrace ⟨some (.full ⟨5, []⟩), none⟩ true .failTruncated ⟨9, []⟩,
      s.cacheDoc = (⟨some (.full ⟨5, []⟩), none⟩ : FS).cacheDoc ∨
        s.cacheDoc = some (.full ⟨9, []⟩)) ∧
    ((cacheWrite ⟨some (.full ⟨5, []⟩), none⟩ true .failTruncated ⟨9, []⟩).1.cacheDoc =
        some (.full ⟨5, []⟩) ∧
      (cacheWrite ⟨some (.full ⟨5, []⟩), none⟩ true .failTruncated ⟨9, []⟩).2 = false) :=
  ⟨(write_atomic ⟨some (.full ⟨5, []⟩), none⟩ true .failTruncated ⟨9, []⟩).1,
   (write_atomic ⟨some (.full ⟨5, []⟩), none⟩ true .failTruncated ⟨9, []⟩).2.1
     (by decide)⟩

/-- Claim C10: the failure classifier checks the credential keywords
(`secrets`, `password`, `authentication`, `802-11-wireless-security`)
on the combined lowercased stderr+stdout before the timeout keyword: a
credential keyword yields `WrongPassword` even when `timeout` is also
present; `Timeout` results exactly when no credential keyword matches
and `timeout` is present; otherwise the result is a failure carrying the
last line of stderr. -/
theorem classify_checks_credentials_first (stderr stdout : String) :
    (credKeyword (combinedOut stderr stdout) = true →
      classifyFailure stderr stdout = .wrongPassword) ∧
    (classifyFailure stderr stdout = .timeout ↔
      credKeyword (combinedOut stderr stdout) = false ∧
        subList "timeout".toList (combinedOut stderr stdout) = true) ∧
    (credKeyword (combinedOut stderr stdout) = false →
      subList "timeout".toList (combinedOut stderr stdout) = false →
      classifyFailure stderr stdout = .failed (lastLineOr stderr)) := by
  simp only [classifyFailure]
  rcases h1 : credKeyword (combinedOut stderr stdout) <;>
    rcases h2 : subList "timeout".toList (combinedOut stderr stdout) <;>
      simp [h1, h2]

/-- Witness for claim C10: output containing both `password` and
`timeout` classifies as `WrongPassword`, not `Timeout`. -/
theorem classify_checks_credentials_first_witness :
    credKeyword (combinedOut "Password Timeout" "") = true ∧
    classifyFailure "Password Timeout" "" = .wrongPassword :=
  ⟨by decide,
   (classify_checks_credentials_first "Password Timeout" "").1 (by decide)⟩

/-- Claim C9: when the external connect command exits unsuccessfully,
`connect_new` issues `nmcli connection delete <ssid>` — deleting any
profile named after the target SSID, a pre-existing saved one included —
before classifying, and it does so for every failure output, hence on
WrongCredential, Timeout and Other outcomes alike. -/
theorem connect_failure_deletes_profile (ssid : String) (pw : Option String)
    (stdout stderr : String) (ip : Option String) :
    (connect_new ssid pw (.exited false stdout stderr) ip).2 =
      [.nmcliConnect ssid pw, .nmcliDelete ssid] ∧
    (connect_new ssid pw (.exited false stdout stderr) ip).1 =
      classifyFailure stderr stdout :=
  ⟨rfl, rfl⟩

/-- A cons cell keeps the last element of a non-empty tail. -/
theorem getLast?_cons_keep {α : Type} (a x : α) (l : List α)
    (h : l.getLast? = some x) : (a :: l).getLast? = some x := by
  rcases l with _ | ⟨b, t⟩
  · simp at h
  · rw [List.getLast?_cons_cons]; exact h

/-- When every attempt reports a wrong credential and every re-prompt is
answered with a non-empty password, each remaining iteration of the
retry loop performs exactly one connect invocation and the trace ends
with the final-failure notification carrying the ceiling. -/
theorem connLoop_all_wrong (env : ConnEnv) (N : Nat)
    (hc : ∀ k, env.connect k = .wrongPassword)
    (hp : ∀ k, ∃ p, env.promptResult k = some p ∧ p ≠ "") :
    ∀ fuel attempt, 1 ≤ fuel → attempt + fuel = N + 1 →
      countConnect (connLoop env N attempt fuel) = fuel ∧
      (connLoop env N attempt fuel).getLast? = some (.notifyFinalFail N) := by
  intro fuel
  induction fuel with
  | zero => intro attempt h1 _; omega
  | succ f ih =>
    intro attempt _ h2
    obtain ⟨p, hps, hpne⟩ := hp attempt
    rcases Nat.eq_zero_or_pos f with hf | hf
    · subst hf
      have ha : attempt = N := by omega
      subst ha
      by_cases hgt : 1 < attempt <;>
        simp [connLoop, connRest, hgt, hps, hpne, hc attempt, countConnect]
    · have ha : ¬ attempt = N := by omega
      have hrec := ih (attempt + 1) hf (by omega)
      obtain ⟨r, rs, hr⟩ : ∃ r rs, connLoop env N (attempt + 1) f = r :: rs := by
        rcases hcons : connLoop env N (attempt + 1) f with _ | ⟨r, rs⟩
        · rw [hcons] at hrec; simp at hrec
        · exact ⟨r, rs, rfl⟩
      rw [hr] at hrec
      by_cases hgt : 1 < attempt <;>
        simp [connLoop, connRest, hgt, hps, hpne, hc attempt, ha, countConnect,
          hr, hrec.1, hrec.2, List.getLast?_cons_cons]

/-- Claim C5: with attempt ceiling `N ≥ 1`, when the connect operation
reports a wrong credential on every attempt and the user supplies a
non-empty credential at every re-prompt, the connect operation is
invoked at most `N` times (exactly `N`), and the flow ends with the
final failure notification that states the total attempt count `N`. -/
theorem retry_ceiling (env : ConnEnv) (N : Nat) (hN : 1 ≤ N)
    (hc : ∀ k, env.connect k = .wrongPassword)
    (hp : ∀ k, ∃ p, env.promptResult k = some p ∧ p ≠ "") :
    countConnect (do_connect_new env N) ≤ N ∧
    countConnect (do_connect_new env N) = N ∧
    (do_connect_new env N).getLast? = some (.notifyFinalFail N) := by
  have h := connLoop_all_wrong env N hc hp N 1 hN (by omega)
  refine ⟨?_, ?_, h.2⟩ <;> rw [do_connect_new, h.1]

/-- Witness for claim C5, at ceiling 3: exactly three connect
invocations, ending in the final failure notification stating 3. -/
theorem retry_ceiling_witness :
    countConnect (do_connect_new envAllWrong 3) ≤ 3 ∧
    countConnect (do_connect_new envAllWrong 3) = 3 ∧
    (do_connect_new envAllWrong 3).getLast? = some (.notifyFinalFail 3) :=
  retry_ceiling envAllWrong 3 (by decide) (fun _ => rfl)
    (fun _ => ⟨"p", rfl, by decide⟩)

/-- One iteration's connect-and-dispatch tail ends with the timeout
notification whenever it contains one, provided the continuation does
too. -/
theorem connRest_timeout_last (env : ConnEnv) (N attempt : Nat)
    (next : List Ev)
    (hnext : Ev.notifyTimeout ∈ next → next.getLast? = some .notifyTimeout) :
    Ev.notifyTimeout ∈ connRest env N attempt next →
      (connRest env N attempt next).getLast? = some .notifyTimeout := by
  intro h
  rcases hco : env.connect attempt with ip | _ | _ | msg <;>
    simp only [connRest, hco] at h ⊢
  · simp at h
  · by_cases ha : attempt = N
    · simp [ha] at h
    · rw [if_neg ha] at h ⊢
      have hm : Ev.notifyTimeout ∈ next := by simpa using h
      exact getLast?_cons_keep _ _ _ (getLast?_cons_keep _ _ _ (hnext hm))
  · rfl
  · simp at h

/-- In any run of the retry loop, a timeout notification is the final
event of the trace: nothing — no connect invocation, no re-prompt — ever
follows it. -/
theorem connLoop_timeout_last (env : ConnEnv) (N : Nat) :
    ∀ fuel attempt, Ev.notifyTimeout ∈ connLoop env N attempt fuel →
      (connLoop env N attempt fuel).getLast? = some .notifyTimeout := by
  intro fuel
  induction fuel with
  | zero => intro attempt h; simp [connLoop] at h
  | succ f ih =>
    intro attempt h
    have hrest := connRest_timeout_last env N attempt
      (connLoop env N (attempt + 1) f) (ih (attempt + 1))
    by_cases hgt : 1 < attempt
    · rcases hps : env.promptResult attempt with _ | p
      · simp [connLoop, hgt, hps] at h
      · by_cases hpe : p = ""
        · simp [connLoop, hgt, hps, hpe] at h
        · simp only [connLoop] at h ⊢
          rw [if_pos hgt] at h ⊢
          simp only [hps] at h ⊢
          rw [if_neg hpe] at h ⊢
          have hm : Ev.notifyTimeout ∈
              connRest env N attempt (connLoop env N (attempt + 1) f) := by
            simpa using h
          exact getLast?_cons_keep _ _ _ (getLast?_cons_keep _ _ _ (hrest hm))
    · simp only [connLoop] at h ⊢
      rw [if_neg hgt] at h ⊢
      exact hrest h

/-- Claim C6: whenever an attempt's outcome is classified as Timeout,
the flow reports it and terminates in that same attempt — the timeout
notification is the last event of the whole trace, so no further connect
invocation occurs and the user is never re-prompted afterwards,
regardless of how many attempts remain below the ceiling. -/
theorem timeout_short_circuit (env : ConnEnv) (N : Nat)
    (h : Ev.notifyTimeout ∈ do_connect_new env N) :
    (do_connect_new env N).getLast? = some .notifyTimeout :=
  connLoop_timeout_last env N N 1 h

/-- Witness for claim C6, at ceiling 3: the first attempt's timeout ends
the trace. -/
theorem timeout_short_circuit_witness :
    Ev.notifyTimeout ∈ do_connect_new envTimeout 3 ∧
    (do_connect_new envTimeout 3).getLast? = some .notifyTimeout :=
  ⟨by decide, timeout_short_circuit envTimeout 3 (by decide)⟩

/-- `dedup_by` never drops an associated entry: the `same_bucket`
closure requires the removal candidate to be non-associated. -/
theorem dedupByKeep_keeps_in_use (l : List AccessPoint) :
    ∀ kept ap, ap ∈ l → ap.in_use = true →
      ap ∈ dedupByKeep dedupPred kept l := by
  induction l with
  | nil => intro kept ap h _; simp at h
  | cons y ys ih =>
    intro kept ap hmem huse
    rcases List.mem_cons.mp hmem with hay | hmem'
    · subst hay
      have hf : dedupPred ap kept = false := by simp [dedupPred, huse]
      simp [dedupByKeep, hf]
    · by_cases hf : dedupPred y kept = true
      · simpa [dedupByKeep, hf] using ih kept ap hmem' huse
      · simp only [dedupByKeep, hf, Bool.false_eq_true, if_false]
        exact List.mem_cons_of_mem _ (ih y ap hmem' huse)

/-- `dedup_by` on the whole vector keeps every associated entry. -/
theorem dedupBy_keeps_in_use (l : List AccessPoint) :
    ∀ ap ∈ l, ap.in_use = true → ap ∈ dedupBy dedupPred l := by
  cases l with
  | nil => intro ap h _; simp at h
  | cons x xs =>
    intro ap hmem huse
    rcases List.mem_cons.mp hmem with h | h
    · subst h; simp [dedupBy]
    · exact List.mem_cons_of_mem _ (dedupByKeep_keeps_in_use xs x ap h huse)

/-- After `dedup_by`, no element satisfies the `same_bucket` closure
against its immediate predecessor. -/
theorem chain'_dedupByKeep (l : List AccessPoint) :
    ∀ kept, List.Chain' (fun a b => dedupPred b a = false)
      (kept :: dedupByKeep dedupPred kept l) := by
  induction l with
  | nil => intro kept; simp [dedupByKeep]
  | cons y ys ih =>
    intro kept
    by_cases hf : dedupPred y kept = true
    · simpa [dedupByKeep, hf] using ih kept
    · have hb : dedupPred y kept = false := by
        simpa using hf
      simp only [dedupByKeep, hf, Bool.false_eq_true, if_false]
      exact List.chain'_cons.mpr ⟨hb, ih y⟩

theorem chain'_dedupBy (l : List AccessPoint) :
    List.Chain' (fun a b => dedupPred b a = false) (dedupBy dedupPred l) := by
  cases l with
  | nil => simp [dedupBy]
  | cons x xs => exact chain'_dedupByKeep xs x

/-- Claim C1 counterexample: the claim promises that any two
non-associated entries with the same SSID collapse to one, but
`dedup_by` only collapses *consecutive* entries of the sorted order
(in-use first, then signal descending), which is not grouped by SSID.
With networks A (signal 90), B (80), A (70) — none associated — both A
entries survive. -/
theorem dedup_collapse_counterexample :
    (list_access_points " :A:WPA2:90:x\n :B:WPA2:80:x\n :A:WPA2:70:x").countP
      (fun ap => ap.ssid = "A" && !ap.in_use) = 2 := by
  have h : parsedAps " :A:WPA2:90:x\n :B:WPA2:80:x\n :A:WPA2:70:x" =
      [⟨"A", .wpa2, 90, "x", false⟩, ⟨"B", .wpa2, 80, "x", false⟩,
       ⟨"A", .wpa2, 70, "x", false⟩] := by decide
  rw [list_access_points, h]
  simp [List.mergeSort, List.merge, apLe, compare, compareOfLessAndEq,
    Ordering.then, dedupBy, dedupByKeep, dedupPred, List.countP, List.countP.go]

/-- Claim C1 (amended): `list_access_points` collapses same-SSID
non-associated entries only when they are adjacent in the sorted order
(associated first, then descending signal): the produced list never
contains an entry sharing the SSID of its immediate predecessor while
being non-associated, and an associated parsed entry is always
retained, never collapsed away. -/
theorem dedup_adjacent_sorted (stdout : String) (ap : AccessPoint)
    (hmem : ap ∈ parsedAps stdout) (huse : ap.in_use = true) :
    List.Chain' (fun a b => dedupPred b a = false)
      (list_access_points stdout) ∧
    ap ∈ list_access_points stdout := by
  constructor
  · exact chain'_dedupBy _
  · have hsort : ap ∈ (parsedAps stdout).mergeSort apLe :=
      (List.mergeSort_perm (parsedAps stdout) apLe).mem_iff.mpr hmem
    exact dedupBy_keeps_in_use _ ap hsort huse

/-- Witness for the amended claim C1: the associated entry A (signal 90)
among a duplicate non-associated A survives deduplication. -/
theorem dedup_adjacent_sorted_witness :
    (⟨"A", .wpa2, 90, "x", true⟩ : AccessPoint) ∈
        parsedAps "*:A:WPA2:90:x\n :A:WPA2:70:x" ∧
    ((⟨"A", .wpa2, 90, "x", true⟩ : AccessPoint).in_use = true) ∧
    (List.Chain' (fun a b => dedupPred b a = false)
        (list_access_points "*:A:WPA2:90:x\n :A:WPA2:70:x") ∧
      (⟨"A", .wpa2, 90, "x", true⟩ : AccessPoint) ∈
        list_access_points "*:A:WPA2:90:x\n :A:WPA2:70:x") :=
  ⟨by decide, by decide,
   dedup_adjacent_sorted "*:A:WPA2:90:x\n :A:WPA2:70:x"
     ⟨"A", .wpa2, 90, "x", true⟩ (by decide) (by decide)⟩

/-- Position/instruction pairs of `do_scan`'s program. -/
theorem doScan_get (n : Nat) (ins : Instr)
    (h : doScanProg.get? n = some ins) :
    (n = 0 ∧ ins = .tryLock) ∨ (n = 1 ∧ ins = .rescan) ∨
    (n = 2 ∧ ins = .listAps) ∨ (n = 3 ∧ ins = .writeCache) ∨
    (n = 4 ∧ ins = .unlock) := by
  rcases n with _ | _ | _ | _ | _ | n <;>
    simp_all [doScanProg]

theorem lockInv_init : lockInv lockInit := by
  intro i
  simp [lockInit]

theorem lockInv_step (s s' : LockSt) (l : Fin 2 × Instr)
    (hinv : lockInv s) (hstep : LockStep ddProg s l s') : lockInv s' := by
  cases hstep with
  | tryLockFree i s hget hnone =>
    have h0 : s.pc i = 0 := by
      rcases doScan_get _ _ (by simpa [ddProg] using hget) with
        ⟨h, _⟩ | ⟨_, h⟩ | ⟨_, h⟩ | ⟨_, h⟩ | ⟨_, h⟩ <;> simp_all
    intro j
    by_cases hj : j = i
    · obtain rfl := hj
      simp [h0]
    · have hold := hinv j
      rw [hnone] at hold
      have hne : ¬ (1 ≤ s.pc j ∧ s.pc j ≤ 4) := by
        intro hcrit
        have h := hold.mp hcrit
        simp at h
      have hji : ¬ i = j := fun h => hj h.symm
      simp [hj, hji, hne]
  | tryLockBusy i s k hget hsome =>
    have h0 : s.pc i = 0 := by
      rcases doScan_get _ _ (by simpa [ddProg] using hget) with
        ⟨h, _⟩ | ⟨_, h⟩ | ⟨_, h⟩ | ⟨_, h⟩ | ⟨_, h⟩ <;> simp_all
    have hki : k ≠ i := by
      intro hk
      obtain rfl := hk
      have := (hinv k).mpr hsome
      omega
    intro j
    by_cases hj : j = i
    · obtain rfl := hj
      simp [hsome, ddProg, doScanProg]
      exact hki
    · simpa [hj] using hinv j
  | execScan i s ins hget hscan =>
    have hn : 1 ≤ s.pc i ∧ s.pc i ≤ 3 := by
      rcases doScan_get _ _ (by simpa [ddProg] using hget) with
        ⟨h, he⟩ | ⟨h, _⟩ | ⟨h, _⟩ | ⟨h, _⟩ | ⟨h, he⟩ <;>
          first
          | (rw [he] at hscan; simp [scanInstr] at hscan)
          | omega
    have hhold : s.lockHolder = some i := (hinv i).mp ⟨hn.1, by omega⟩
    intro j
    by_cases hj : j = i
    · obtain rfl := hj
      simp [hhold]
      omega
    · simpa [hj] using hinv j
  | unlock i s hget =>
    have h4 : s.pc i = 4 := by
      rcases doScan_get _ _ (by simpa [ddProg] using hget) with
        ⟨_, h⟩ | ⟨_, h⟩ | ⟨_, h⟩ | ⟨_, h⟩ | ⟨h, _⟩ <;> simp_all
    have hhold : s.lockHolder = some i := (hinv i).mp (by omega)
    intro j
    by_cases hj : j = i
    · obtain rfl := hj
      simp [hhold, h4]
    · have hold := hinv j
      rw [hhold] at hold
      have hne : ¬ (1 ≤ s.pc j ∧ s.pc j ≤ 4) := by
        intro hcrit
        exact hj (Option.some.inj (hold.mp hcrit)).symm
      simp [hhold, hj, hne]

theorem lockReach_inv (s : LockSt) (h : LockReach ddProg s) : lockInv s := by
  induction h with
  | refl => exact lockInv_init
  | tail _ hbc ih =>
    obtain ⟨l, hstep⟩ := hbc
    exact lockInv_step _ _ _ ih hstep

/-- Claim C2 counterexample: in the system the repository actually runs
(foreground `do_scan` beside the daemon loop body), the daemon executes
the scan-and-write sequence without holding the lock: from the initial
state it performs `rescan` while the lock is free and unclaimed, so it
is false that every scan-and-write step is taken under the lock. -/
theorem scan_lock_counterexample : ¬ scanNeedsLock mixedProg := by
  intro h
  have hstep : LockStep mixedProg lockInit (1, .rescan)
      { lockHolder := lockInit.lockHolder,
        pc := fun j => if j = 1 then lockInit.pc 1 + 1 else lockInit.pc j } :=
    LockStep.execScan 1 lockInit .rescan rfl rfl
  have hres := h lockInit (1, .rescan) _ Relation.ReflTransGen.refl hstep rfl
  simp [lockInit] at hres

/-- Claim C2 (amended): the scan lock guards the `do_scan` path only.
Among concurrent `do_scan` invocations (foreground and the
fire-and-forget background spawn) the advisory lock gives mutual
exclusion — every scan-and-write step is taken by the lock holder, the
two processes are never simultaneously inside the locked section — and
an invocation that finds the lock busy returns immediately (its program
counter jumps past the end) without scanning and without blocking or
erroring; the daemon's loop body, however, scans and writes without
acquiring the lock (see the counterexample). -/
theorem scan_lock_do_scan_only (s s' : LockSt) (l : Fin 2 × Instr)
    (hr : LockReach ddProg s) (hstep : LockStep ddProg s l s') :
    (scanInstr l.2 = true → s.lockHolder = some l.1) ∧
    ¬(inCrit s 0 ∧ inCrit s 1) ∧
    (l.2 = .tryLock → s.lockHolder ≠ none →
      s'.pc l.1 = (ddProg l.1).length ∧ s'.lockHolder = s.lockHolder) := by
  have hinv := lockReach_inv s hr
  refine ⟨?_, ?_, ?_⟩
  · intro hscan
    cases hstep with
    | tryLockFree i s hget hnone => simp [scanInstr] at hscan
    | tryLockBusy i s k hget hsome => simp [scanInstr] at hscan
    | unlock i s hget => simp [scanInstr] at hscan
    | execScan i s ins hget hscan' =>
      have hn : 1 ≤ s.pc i ∧ s.pc i ≤ 3 := by
        rcases doScan_get _ _ (by simpa [ddProg] using hget) with
          ⟨h, he⟩ | ⟨h, _⟩ | ⟨h, _⟩ | ⟨h, _⟩ | ⟨h, he⟩ <;>
            first
            | (rw [he] at hscan'; simp [scanInstr] at hscan')
            | omega
      exact (hinv i).mp ⟨hn.1, by omega⟩
  · rintro ⟨⟨h01, h02⟩, ⟨h11, h12⟩⟩
    have e0 := (hinv 0).mp ⟨h01, h02⟩
    have e1 := (hinv 1).mp ⟨h11, h12⟩
    rw [e0] at e1
    exact absurd (Option.some.inj e1) (by decide)
  · intro hl hne
    cases hstep with
    | tryLockFree i s hget hnone => exact absurd hnone hne
    | tryLockBusy i s k hget hsome => exact ⟨by simp, rfl⟩
    | execScan i s ins hget hscan' =>
      simp only at hl
      rw [hl] at hscan'
      simp [scanInstr] at hscan'
    | unlock i s hget => simp at hl

/-- Witness for the amended claim C2: with process 0 holding the lock,
process 1's `tryLock` observes busy and returns at once — its counter
jumps to the end of `do_scan` and the lock holder is unchanged. -/
theorem scan_lock_do_scan_only_witness :
    lockS2.pc 1 = (ddProg 1).length ∧ lockS2.lockHolder = lockS1.lockHolder :=
  (scan_lock_do_scan_only lockS1 lockS2 (1, .tryLock)
      (Relation.ReflTransGen.single
        ⟨(0, .tryLock), LockStep.tryLockFree 0 lockInit rfl rfl⟩)
      (LockStep.tryLockBusy 1 lockS1 0 rfl rfl)).2.2 rfl (by decide)

/-- Every branch of `handle_action` resolves to `Back` or `Refresh`:
none returns `Quit`, whatever the collaborators answer. -/
theorem handle_action_ne_quit (action : MenuAction) (env : UiEnv)
    (curr_ssid : Option String) :
    handle_action action env curr_ssid ≠ Nav.quit := by
  cases action <;>
    simp only [handle_action] <;>
      (repeat' split) <;> simp

/-- Claim C8: the `Quit` navigation signal is produced only by
cancellation of the top-level network-list menu: every dispatched menu
action resolves to `Back` or `Refresh` — cancellation of any nested
prompt included — so `run_menu` yields `Quit` exactly when the
top-level menu was cancelled, and the interactive loop never exits from
a nested prompt. -/
theorem quit_only_from_top_level (env : UiEnv) (aps : List AccessPoint)
    (curr_ssid : Option String) (action : MenuAction) :
    handle_action action env curr_ssid ≠ Nav.quit ∧
    (run_menu env aps curr_ssid = Nav.quit ↔ env.mainMenuChoice = none) := by
  refine ⟨handle_action_ne_quit action env curr_ssid, ?_⟩
  rcases hch : env.mainMenuChoice with _ | c
  · simp [run_menu, hch]
  · simp only [run_menu, hch]
    constructor
    · intro h
      exact absurd h (handle_action_ne_quit _ env curr_ssid)
    · intro h
      exact absurd h (by simp)

end RofiWifi
